import Mathlib

/-
Verification of the go-outlook HTTP client core (Client + Session) against its
natural-language specification.

The Go source is shallowly embedded: every definition below is translated from
the corresponding function in `outlook.go` / `session.go` (the repository keeps
two revisions of `session.go`; both versions of `Session.query` are embedded).
Functions of the Go standard library that the source calls (`path.Clean`,
`path.Join`, `url.URL.JoinPath`, the host-extraction part of `url.Parse`,
`strings.Trim`) are modelled faithfully for inputs made of characters that
Go's URL escaping leaves unchanged (no `%`-escapes, no characters that
`EscapedPath` would rewrite); all theorems below stay inside that domain.

Strings are represented by Lean `String` (in this toolchain a packed
`List Char`), and the path algorithms operate on the underlying character
lists exactly as Go's byte-level code does on ASCII input.
-/

namespace GoOutlook

/-! ## Character-list utilities (Go `strings` / `path` internals) -/

/-- Split a character list on `'/'`, keeping empty fields, exactly like Go's
`strings.Split(s, "/")` acting on ASCII bytes. -/
def splitSl : List Char → List (List Char)
  | [] => [[]]
  | c :: cs =>
    if c == '/' then [] :: splitSl cs
    else
      match splitSl cs with
      | [] => [[c]]
      | sg :: rest => (c :: sg) :: rest

/-- Join path segments with `'/'` (the rendering half of Go's `path.Clean`). -/
def interL : List (List Char) → List Char
  | [] => []
  | [sg] => sg
  | sg :: rest => sg ++ '/' :: interL rest

/-- The segment-processing loop of Go's `path.Clean`: drop empty and `.`
segments; `..` pops the last kept segment (for rooted paths a `..` at the
root is dropped, for relative paths leading `..` segments are kept). -/
def cleanSegsAux (rooted : Bool) (acc : List (List Char)) : List (List Char) → List (List Char)
  | [] => acc.reverse
  | sg :: rest =>
    if sg.isEmpty || sg = ['.'] then cleanSegsAux rooted acc rest
    else if sg = ['.', '.'] then
      match acc with
      | [] => if rooted then cleanSegsAux rooted [] rest else cleanSegsAux rooted [['.', '.']] rest
      | a :: tl =>
        if a = ['.', '.'] then cleanSegsAux rooted (['.', '.'] :: a :: tl) rest
        else cleanSegsAux rooted tl rest
    else cleanSegsAux rooted (sg :: acc) rest

/-- Go's `path.Clean` on a character list: lexical cleaning of the path
(collapse repeated slashes, eliminate `.` and `..` elements, rooted paths
stay rooted, the empty path cleans to `.`). -/
def pathCleanL (s : List Char) : List Char :=
  match s with
  | [] => ['.']
  | '/' :: _ =>
    match cleanSegsAux true [] (splitSl s) with
    | [] => ['/']
    | segs => '/' :: interL segs
  | _ :: _ =>
    match cleanSegsAux false [] (splitSl s) with
    | [] => ['.']
    | segs => interL segs

/-- Go's `path.Clean` on strings. -/
def pathClean (s : String) : String := ⟨pathCleanL s.data⟩

/-- Go's `path.Join(a, b)`: join the non-empty arguments with `"/"` and clean
the result; all-empty input yields the empty string. -/
def pathJoin2 (a b : String) : String :=
  if a = "" && b = "" then ""
  else if a = "" then pathClean b
  else if b = "" then pathClean a
  else pathClean (a ++ "/" ++ b)

/-- Whether a string starts with `'/'` (Go `strings.HasPrefix(s, "/")`). -/
def startsSlash (s : String) : Bool :=
  match s.data with
  | '/' :: _ => true
  | _ => false

/-- Whether a string ends with `'/'` (Go `strings.HasSuffix(s, "/")`). -/
def endsSlash (s : String) : Bool :=
  match s.data.reverse with
  | [] => false
  | c :: _ => c == '/'

/-- Go's `url.URL.JoinPath` restricted to a URL that carries only a path
component (the session's parsed base path): join via `path.Join` (a relative
base is temporarily rooted and the added slash stripped again), then — since
`path.Join` removes trailing slashes — preserve one trailing slash when the
last joined element ends in `'/'` and the joined result does not. -/
def urlJoinPath (basePath urlPath : String) : String :=
  let p := if startsSlash basePath then pathJoin2 basePath urlPath
           else ⟨(pathJoin2 ("/" ++ basePath) urlPath).data.drop 1⟩
  if endsSlash urlPath && !endsSlash p then p ++ "/" else p

/-- A control byte in the sense of Go's `stringContainsCTLByte`. -/
def isCtl (c : Char) : Bool := c.toNat < 32 || c.toNat == 127

/-- Whether a string is free of control bytes; Go's `url.Parse` rejects URLs
containing them. -/
def ctlFree (s : String) : Bool := s.data.all (fun c => !isCtl c)

/-- A character allowed after the first position of a URL scheme. -/
def isSchemeChar (c : Char) : Bool := c.isAlpha || c.isDigit || c == '+' || c == '-' || c == '.'

/-- The scheme-splitting loop of Go's `url.getScheme`: returns the scheme and
the remainder when the string starts with `alpha (alnum|+|-|.)* ":"`, and
`none` (no scheme, whole string is the rest) otherwise. -/
def findScheme (acc : List Char) : List Char → Option (List Char × List Char)
  | [] => none
  | c :: rest =>
    if c == ':' then (if acc.isEmpty then none else some (acc.reverse, rest))
    else if (if acc.isEmpty then c.isAlpha else isSchemeChar c) then findScheme (c :: acc) rest
    else none

/-- Keep the part of an authority after the last `'@'` (Go strips userinfo at
the last `@`). -/
def afterLastAt (l : List Char) : List Char :=
  (l.reverse.takeWhile (fun c => !(c == '@'))).reverse

/-- Host extraction from the part following `"//"`: the authority runs to the
first `/`, `?` or `#`; userinfo before the last `@` is stripped, and
`URL.Hostname()` drops the `:port` suffix (bracketed IPv6 hosts are outside
the model). -/
def extractHost (l : List Char) : String :=
  let auth := l.takeWhile (fun c => !(c == '/' || c == '?' || c == '#'))
  ⟨(afterLastAt auth).takeWhile (fun c => !(c == ':'))⟩

/-- `url.Parse(s).Hostname()` for control-free strings: a host is present
exactly when the string (after an optional scheme) continues with `"//"`. -/
def hostOf (s : String) : String :=
  match findScheme [] s.data with
  | some (_, rest) =>
    match rest with
    | '/' :: '/' :: tail => extractHost tail
    | _ => ""
  | none =>
    match s.data with
    | '/' :: '/' :: tail => extractHost tail
    | _ => ""

/-- Whether the string parses as an absolute URL, i.e. has a scheme
(Go `URL.IsAbs()`). -/
def hasScheme (s : String) : Bool := (findScheme [] s.data).isSome

/-! ## Errors (Go error values, modelled by their `Error()` strings) -/

/-- Error of `url.Parse` on control bytes. -/
def errInvalidControlChar : String := "net/url: invalid control character in URL"

/-- Error of `Client.NewRequest` for a form-urlencoded body that is not
`url.Values` (verbatim from `outlook.go`). -/
def errFormBodyType : String :=
  "body must be of type url.Values when Content-Type is set to application/x-www-form-urlencoded"

/-- Error of `encoding/json` on an unencodable value. -/
def errJSONEncode : String := "json: unsupported type"

/-- Modelled from the spec: `ErrNoAccessToken` is referenced by
`Session.query` but its declaration is not under `src/`; the spec calls it
"a distinct `no access token` error". -/
def ErrNoAccessToken : String := "no access token"

/-- Error of reading an `http.Response` body after it was closed. -/
def errReadOnClosedBody : String := "http: read on closed response body"

/-- Error of `json.Decoder.Decode` into the caller's result sink. -/
def errJSONDecode : String := "json decode error"

/-! ## Client and request construction (`outlook.go`) -/

/-- An OAuth2 token as produced by the client's token source. -/
structure OAuthToken where
  AccessToken : String
  RefreshToken : String

/-- The `Client` configuration bundle. The underlying `http.Client` is passed
explicitly to `Client.Do` as a `transport` function, and the token source is
the single `Token()` result it would yield. -/
structure Client where
  baseURL : String
  userAgent : String
  mediaType : String
  tokenSource : Except String OAuthToken

/-- `DefaultBaseURL` from `outlook.go`. -/
def DefaultBaseURL : String := "https://graph.microsoft.com/v1.0"

/-- `ClientVersion` from `outlook.go`. -/
def ClientVersion : String := "0.1.0"

/-- `DefaultUserAgent` from `outlook.go`. -/
def DefaultUserAgent : String := "go-outlook/" ++ ClientVersion

/-- The package-level `mediaType` constant from `outlook.go`. -/
def defaultMediaType : String := "application/json"

/-- `SetClientMediaType` option. -/
def SetClientMediaType (m : String) : Client → Client := fun c => { c with mediaType := m }

/-- `SetClientTokenSource` option. -/
def SetClientTokenSource (ts : Except String OAuthToken) : Client → Client :=
  fun c => { c with tokenSource := ts }

/-- `NewClient`: defaults then the options in order (the parse of the constant
`DefaultBaseURL` never fails, so the error branch is not modelled). -/
def NewClient (opts : List (Client → Client)) : Client :=
  opts.foldl (fun c o => o c)
    { baseURL := DefaultBaseURL, userAgent := DefaultUserAgent,
      mediaType := defaultMediaType, tokenSource := Except.error "no token source" }

/-- The `body interface{}` argument of `NewRequest`, abstracted by the only
properties the code inspects: absent (`nil`), a `url.Values`, a non-`Values`
value with a given JSON encoding, or a value `encoding/json` rejects. -/
inductive ReqBody where
  | empty : ReqBody
  | values : List (String × String) → ReqBody
  | jsonable : String → ReqBody
  | unjsonable : ReqBody

/-- `url.Values.Encode` for pre-sorted keys and unreserved characters:
`k=v` pairs joined by `&`. -/
def formEncode : List (String × String) → String
  | [] => ""
  | [(k, v)] => k ++ "=" ++ v
  | (k, v) :: rest => k ++ "=" ++ v ++ "&" ++ formEncode rest

/-- JSON rendering `encoding/json` gives a `url.Values` map (shape is never
inspected by the code; any fixed rendering serves). -/
def valuesJson : List (String × String) → String
  | [] => "\x7b\x7d"
  | (k, v) :: rest => "\x7b\"" ++ k ++ "\":[\"" ++ v ++ "\"]\x7d" ++ valuesJson rest

/-- The body-encoding dispatch of `Client.NewRequest`: a `switch` on the
configured media type with cases for JSON and form-urlencoded and no default
case (`json.Encoder.Encode` appends a newline). -/
def encodeBody (mediaTypeC : String) (b : ReqBody) : Except String String :=
  match b with
  | .empty => .ok ""
  | .values vs =>
    if mediaTypeC = "application/json" then .ok (valuesJson vs ++ "\n")
    else if mediaTypeC = "application/x-www-form-urlencoded" then .ok (formEncode vs)
    else .ok ""
  | .jsonable s =>
    if mediaTypeC = "application/json" then .ok (s ++ "\n")
    else if mediaTypeC = "application/x-www-form-urlencoded" then .error errFormBodyType
    else .ok ""
  | .unjsonable =>
    if mediaTypeC = "application/json" then .error errJSONEncode
    else if mediaTypeC = "application/x-www-form-urlencoded" then .error errFormBodyType
    else .ok ""

/-- An `http.Request` as far as the code observes it. -/
structure Request where
  method : String
  url : String
  body : String
  headers : List (String × String)

/-- `Client.NewRequest`: parse the path (control bytes fail), use it verbatim
when it carries a host, otherwise concatenate it onto the base URL; then
encode the body per the configured media type and set the default headers. -/
def Client.NewRequest (c : Client) (method path : String) (body : ReqBody) :
    Except String Request :=
  if !ctlFree path then .error errInvalidControlChar
  else
    match encodeBody c.mediaType body with
    | .error e => .error e
    | .ok enc =>
      .ok { method := method,
            url := if hostOf path = "" then c.baseURL ++ path else path,
            body := enc,
            headers := [("Content-Type", c.mediaType), ("Accept", defaultMediaType),
                        ("User-Agent", c.userAgent)] }

/-! ## Response execution (`Client.Do`) -/

/-- A response body as a scoped resource: its unread content, whether it has
been closed, and whether its `Close` reports an error. -/
structure BodyRes where
  remaining : String
  closed : Bool
  closeFails : Bool

/-- What the transport (the underlying `http.Client`) yields on a successful
round-trip. -/
structure TranspResp where
  statusCode : Nat
  body : String
  closeFails : Bool

/-- The `*http.Response` as `Do` returns it: status code plus the body
resource in its final state. -/
structure RespFinal where
  statusCode : Nat
  body : BodyRes

/-- Read a body to the end (`io.Copy` / `json.Decoder` source); reading a
closed `http.Response` body fails. -/
def readAll (b : BodyRes) : Except String (String × BodyRes) :=
  if b.closed then .error errReadOnClosedBody
  else .ok (b.remaining, { b with remaining := "" })

/-- Close a body, yielding the closed resource and the close error, if any. -/
def closeBody (b : BodyRes) : BodyRes × Option String :=
  ({ b with closed := true }, if b.closeFails then some "close failed" else none)

/-- Modelled Go `json.Decode` into `struct { Message string }` for canonical
one-field objects `\x7b"message":"<text>"\x7d` without escapes or extra
whitespace; every other input (including an empty or closed-off body) is a
decode failure, matching the code paths the claims exercise. -/
def jsonDecodeMessage (s : String) : Option String :=
  match s.data with
  | '\x7b' :: '"' :: 'm' :: 'e' :: 's' :: 's' :: 'a' :: 'g' :: 'e' :: '"' :: ':' :: '"' :: rest =>
    match rest.reverse with
    | '\x7d' :: '"' :: midRev =>
      let mid := midRev.reverse
      if mid.all (fun c => !(c == '"' || c == '\\')) then some ⟨mid⟩ else none
    | _ => none
  | _ => none

/-- Rendering of the structured API error (status plus decoded message). -/
def apiErr (st : Nat) (m : String) : String :=
  "API error: status " ++ (toString st ++ (": " ++ m))

/-- Rendering of the API error when the error body cannot be parsed: the
status code wrapped together with the parse failure. -/
def apiErrParseFail (st : Nat) (e : String) : String :=
  "API error: status " ++ (toString st ++ (": failed to parse error response: " ++ e))

/-- Modelled from the spec: `checkResponse` is called by `Client.Do` but is
not under `src/`. Per the spec (§7), a status outside 200–299 yields "a
structured error carrying at least the status code and, where available, a
decoded error message from the response body; if the body can't be parsed as
expected, the parse failure is wrapped together with the status code"; a 2xx
status yields no error and leaves the body untouched. -/
def checkResponse (st : Nat) (b : BodyRes) : Option String × BodyRes :=
  if 200 ≤ st && st < 300 then (none, b)
  else
    match readAll b with
    | .error e => (some (apiErrParseFail st e), b)
    | .ok (content, b2) =>
      match jsonDecodeMessage content with
      | some m => (some (apiErr st m), b2)
      | none => (some (apiErrParseFail st "body is not a JSON error object"), b2)

/-- The caller's result sink: absent (`nil`), an `io.Writer` receiving the
raw bytes, or a JSON target whose decoder either produces a decoded value or
fails. -/
inductive Sink where
  | noSink : Sink
  | rawWriter : Sink
  | jsonSink : (String → Option String) → Sink

/-- What a call to `Client.Do` (and hence `Session.query`) produces: the
returned `*http.Response` (absent on transport failure), the returned error,
and what was written into the caller's sink, if anything. -/
structure DoResult where
  resp : Option RespFinal
  err : Option String
  sinkOut : Option String

/-- The deferred epilogue of `Client.Do`: close the response body and return.
The source assigns the close error to the local variable `err` inside the
deferred closure, but `Do` has unnamed result parameters, so the assignment
happens after the return values are fixed and the close error is discarded. -/
def doFinish (st : Nat) (b : BodyRes) (err : Option String) (out : Option String) : DoResult :=
  { resp := some { statusCode := st, body := (closeBody b).1 }, err := err, sinkOut := out }

/-- The `io.Copy(w, response.Body)` arm of `Client.Do`: raw-copy the body
into the caller's writer. -/
def serveRaw (st : Nat) (b1 : BodyRes) : DoResult :=
  match readAll b1 with
  | .error e => doFinish st b1 (some e) none
  | .ok (content, b2) => doFinish st b2 none (some content)

/-- The `json.NewDecoder(response.Body).Decode(v)` arm of `Client.Do`. -/
def serveJson (st : Nat) (b1 : BodyRes) (dec : String → Option String) : DoResult :=
  match readAll b1 with
  | .error e => doFinish st b1 (some e) none
  | .ok (content, b2) =>
    match dec content with
    | some out => doFinish st b2 none (some out)
    | none => doFinish st b2 (some errJSONDecode) none

/-- The body of `Client.Do` after a successful transport round-trip: check
the status via `checkResponse` before touching the body for the caller, then
serve the sink (skip for `nil`, raw copy for an `io.Writer`, JSON decode
otherwise), closing the body on every exit path. -/
def doRoundTrip (tr : TranspResp) (v : Sink) : DoResult :=
  match checkResponse tr.statusCode
      { remaining := tr.body, closed := false, closeFails := tr.closeFails } with
  | (some e, b1) => doFinish tr.statusCode b1 (some e) none
  | (none, b1) =>
    match v with
    | .noSink => doFinish tr.statusCode b1 none none
    | .rawWriter => serveRaw tr.statusCode b1
    | .jsonSink dec => serveJson tr.statusCode b1 dec

/-- `Client.Do`: run the request through the transport; on transport failure
return the error with no response; otherwise proceed per `doRoundTrip`. -/
def Client.Do (transport : Request → Except String TranspResp) (req : Request) (v : Sink) :
    DoResult :=
  match transport req with
  | .error e => { resp := none, err := some e, sinkOut := none }
  | .ok tr => doRoundTrip tr v

/-! ## Session (`session.go`, both revisions) -/

/-- The per-user `Session`. -/
structure Session where
  client : Client
  basePath : String
  accessToken : String
  refreshToken : String

/-- `NewSession`: pull a token from the client's token source, propagate its
failure, and fix the base path to `/me`. -/
def NewSession (client : Client) : Except String Session :=
  match client.tokenSource with
  | .error e => .error e
  | .ok token =>
    .ok { client := client, basePath := "/me",
          accessToken := token.AccessToken, refreshToken := token.RefreshToken }

/-- Modelled from the spec: `createQueryString` is called by `Session.query`
but is not under `src/`. Per the spec (§3) request parameters "must serialize
deterministically into a URL query string"; modelled on already-stringified
key/value pairs rendered `k=v` and joined by `&`, without a leading `?` (the
date/boolean rendering contract of §6 happens upstream of this point). -/
def createQueryString (params : List (String × String)) : String := formEncode params

/-- The `if params != nil` guard of `Session.query` around
`createQueryString`. -/
def paramsQS : Option (List (String × String)) → String
  | none => ""
  | some m => createQueryString m

/-- The request path the first revision of `Session.query` hands to
`Client.NewRequest`: `url.Parse(basePath).JoinPath(urlPath)` with the query
string attached as `RawQuery`, rendered by `URL.String()`. -/
def sessionPath (basePath urlPath queryString : String) : String :=
  urlJoinPath basePath urlPath ++ (if queryString = "" then "" else "?" ++ queryString)

/-- The request path the second revision of `Session.query` hands to
`Client.NewRequest`: `fmt.Sprintf("%s%s%s", basePath, url, queryString)`. -/
def sessionPathConcat (basePath urlPath queryString : String) : String :=
  basePath ++ urlPath ++ queryString

/-- `req.Header.Set("Authorization", "Bearer <token>")` (no Authorization
header exists beforehand, so Set appends). -/
def setAuthHeader (r : Request) (tok : String) : Request :=
  { r with headers := r.headers ++ [("Authorization", "Bearer " ++ tok)] }

/-- `Session.query`, first revision: build the query string, parse the base
path and join the relative path onto it, construct the request, then check
the access token before delegating to `Client.Do`. -/
def Session.query (s : Session) (transport : Request → Except String TranspResp)
    (method urlPath : String) (params : Option (List (String × String)))
    (data : ReqBody) (result : Sink) : DoResult :=
  let queryString := paramsQS params
  if !ctlFree s.basePath then { resp := none, err := some errInvalidControlChar, sinkOut := none }
  else
    match s.client.NewRequest method (sessionPath s.basePath urlPath queryString) data with
    | .error e => { resp := none, err := some e, sinkOut := none }
    | .ok req =>
      if s.accessToken = "" then { resp := none, err := some ErrNoAccessToken, sinkOut := none }
      else Client.Do transport (setAuthHeader req s.accessToken) result

/-- `Session.query`, second revision: same shape, but the path handed to
`Client.NewRequest` is the plain concatenation of base path, relative path
and query string. -/
def Session.queryConcat (s : Session) (transport : Request → Except String TranspResp)
    (method urlPath : String) (params : Option (List (String × String)))
    (data : ReqBody) (result : Sink) : DoResult :=
  let queryString := paramsQS params
  match s.client.NewRequest method (sessionPathConcat s.basePath urlPath queryString) data with
  | .error e => { resp := none, err := some e, sinkOut := none }
  | .ok req =>
    if s.accessToken = "" then { resp := none, err := some ErrNoAccessToken, sinkOut := none }
    else Client.Do transport (setAuthHeader req s.accessToken) result

/-- `Session.Get`. -/
def Session.Get (s : Session) (transport : Request → Except String TranspResp)
    (url : String) (params : Option (List (String × String))) (result : Sink) : DoResult :=
  s.query transport "GET" url params ReqBody.empty result

/-- `Session.Post`. -/
def Session.Post (s : Session) (transport : Request → Except String TranspResp)
    (url : String) (data : ReqBody) (result : Sink) : DoResult :=
  s.query transport "POST" url none data result

/-- `Session.Patch`. -/
def Session.Patch (s : Session) (transport : Request → Except String TranspResp)
    (url : String) (data : ReqBody) (result : Sink) : DoResult :=
  s.query transport "PATCH" url none data result

/-- `Session.Delete`. -/
def Session.Delete (s : Session) (transport : Request → Except String TranspResp)
    (url : String) (params : Option (List (String × String))) (result : Sink) : DoResult :=
  s.query transport "DELETE" url params ReqBody.empty result

/-- The JSON encoding of the `map[string]interface{}{"message": message}`
body of `Session.Send` (the message stands for its own JSON rendering). -/
def sendBodyJson (message : String) : String :=
  "\x7b\"message\":" ++ message ++ "\x7d"

/-- `Send`'s error for a non-202 status with a decodable error body. -/
def sendErr (st : Nat) (m : String) : String :=
  "failed to send email: status " ++ (toString st ++ (": " ++ m))

/-- `Send`'s fallback error when decoding the error body fails. -/
def sendErrParseFail (st : Nat) (e : String) : String :=
  "failed to send email: status " ++ (toString st ++ (": Failed to parse error response: " ++ e))

/-- `Session.Send`: POST `\x7b"message": message\x7d` to `/sendMail` with no
result sink; on a returned error propagate it; otherwise any status other
than 202 is a failure whose message is decoded from the response body, with
a fallback error wrapping the status code and the decode failure. -/
def Session.Send (s : Session) (transport : Request → Except String TranspResp)
    (message : String) : Option String :=
  let body := ReqBody.jsonable (sendBodyJson message)
  let r := s.query transport "POST" "/sendMail" none body Sink.noSink
  match r.err with
  | some e => some e
  | none =>
    match r.resp with
    | none => some "panic: nil response"
    | some resp =>
      if resp.statusCode != 202 then
        match readAll resp.body with
        | .error e => some (sendErrParseFail resp.statusCode e)
        | .ok (content, _) =>
          match jsonDecodeMessage content with
          | some m => some (sendErr resp.statusCode m)
          | none => some (sendErrParseFail resp.statusCode "body is not a JSON error object")
      else none

/-! ## Spec-side definitions (written from the spec's words, for comparison) -/

/-- A well-formed path segment: nonempty and alphanumeric (characters Go's
path escaping leaves unchanged; in particular not `.`, `..` or empty). -/
def goodSegL (sg : List Char) : Bool := !sg.isEmpty && sg.all (fun c => c.isAlpha || c.isDigit)

/-- `goodSegL` on strings. -/
def goodSeg (sg : String) : Bool := goodSegL sg.data

/-- A run of `i` slashes. -/
def repSlash (i : Nat) : String := ⟨List.replicate i '/'⟩

/-- Slash-joined segments (the slash-trimmed core of a relative path). -/
def joinSegs : List String → String
  | [] => ""
  | [sg] => sg
  | sg :: rest => sg ++ "/" ++ joinSegs rest

/-- Substring containment, used to state what an error's text carries. -/
def containsSub (a b : String) : Prop := ∃ x y, a = x ++ (b ++ y)

/-! ## Shared concrete instances for witnesses and counterexamples -/

/-- A default-configured client with a JSON media type. -/
def clientJSON : Client :=
  { baseURL := DefaultBaseURL, userAgent := DefaultUserAgent,
    mediaType := "application/json",
    tokenSource := Except.ok { AccessToken := "tok", RefreshToken := "ref" } }

/-- The same client configured for form-urlencoded bodies via
`SetClientMediaType`. -/
def clientForm : Client := SetClientMediaType "application/x-www-form-urlencoded" clientJSON

/-- The same client configured with an unrecognized media type. -/
def clientText : Client := SetClientMediaType "text/plain" clientJSON

/-- A session whose access token is the empty string. -/
def sessionNoToken : Session :=
  { client := clientForm, basePath := "/me", accessToken := "", refreshToken := "" }

/-- A transport double that fails if it is ever invoked. -/
def deadTransport : Request → Except String TranspResp :=
  fun _ => Except.error "transport invoked"

/-- A transport double yielding a fixed response. -/
def constTransport (st : Nat) (body : String) (closeFails : Bool) :
    Request → Except String TranspResp :=
  fun _ => Except.ok { statusCode := st, body := body, closeFails := closeFails }

/-- A concrete request for exercising `Client.Do` directly. -/
def req0 : Request :=
  { method := "GET", url := DefaultBaseURL ++ "/me/messages", body := "", headers := [] }

/-- An empty-token session over the default JSON client. -/
def sessionNoTokenJSON : Session :=
  { client := clientJSON, basePath := "/me", accessToken := "", refreshToken := "" }

/-- A session holding an access token, as `NewSession` builds it over
`clientJSON`. -/
def sessionTok : Session :=
  { client := clientJSON, basePath := "/me", accessToken := "tok", refreshToken := "ref" }

/-! ## General string lemmas -/

theorem strData_append (a b : String) : (a ++ b).data = a.data ++ b.data := rfl

theorem strAppend_assoc (a b c : String) : a ++ b ++ c = a ++ (b ++ c) :=
  String.ext (by simp only [strData_append, List.append_assoc])

theorem strAppend_empty (a : String) : a ++ "" = a :=
  String.ext (by simp only [strData_append]; exact List.append_nil _)

/-! ## Claim C4 -/

/-- Claim C4 (code bug): on a post-round-trip exit of `Client.Do` the body is
indeed closed, but a close failure is NOT surfaced as the returned error:
because `Do` has unnamed result parameters, the deferred `err = closeErr`
assignment mutates a dead local. Evaluated at a failing input: a 200 response
whose body `Close` fails, with no sink — the returned error is `none` even
though the close failed. -/
theorem c4_close_failure_swallowed :
    (Client.Do (constTransport 200 "payload" true) req0 Sink.noSink).err = none
    ∧ (Client.Do (constTransport 200 "payload" true) req0 Sink.noSink).resp
        = some { statusCode := 200,
                 body := { remaining := "payload", closed := true, closeFails := true } } :=
  ⟨rfl, rfl⟩

/-! ## Claim C5 -/

/-- Claim C5: for every response with status outside 200–299 that completes
the round-trip, `Client.Do` returns a non-nil error even when a sink was
supplied, and the sink is never populated (the status check precedes body
consumption for the caller). -/
theorem c5_non2xx_error_no_sink (transport : Request → Except String TranspResp)
    (req : Request) (v : Sink) (tr : TranspResp) (h : transport req = Except.ok tr)
    (hst : ¬ (200 ≤ tr.statusCode ∧ tr.statusCode < 300)) :
    (Client.Do transport req v).err.isSome = true
    ∧ (Client.Do transport req v).sinkOut = none := by
  have hb : (decide (200 ≤ tr.statusCode) && decide (tr.statusCode < 300)) = false := by
    by_cases h1 : 200 ≤ tr.statusCode
    · have h2 : ¬ tr.statusCode < 300 := fun hlt => hst ⟨h1, hlt⟩
      simp [h2]
    · simp [h1]
  have hDo : Client.Do transport req v = doRoundTrip tr v := by
    unfold Client.Do
    rw [h]
  rw [hDo]
  rcases hd : jsonDecodeMessage tr.body with _ | m <;>
    simp [doRoundTrip, checkResponse, hb, readAll, hd, doFinish]

/-- Witness for C5 at status 404 with a JSON sink. -/
theorem c5_witness :
    (Client.Do (constTransport 404 "nope" false) req0 (Sink.jsonSink some)).err.isSome = true
    ∧ (Client.Do (constTransport 404 "nope" false) req0 (Sink.jsonSink some)).sinkOut = none :=
  c5_non2xx_error_no_sink (constTransport 404 "nope" false) req0 (Sink.jsonSink some)
    { statusCode := 404, body := "nope", closeFails := false } rfl (by decide)

/-! ## Claim C9 -/

/-- Claim C9: whenever the transport round-trip completes, `Client.Do` returns
the response (with its status code) alongside whatever error arises; only on
transport-level failure is the returned response `none`. -/
theorem c9_response_alongside_error (transport : Request → Except String TranspResp)
    (req : Request) (v : Sink) :
    (∀ e, transport req = Except.error e →
        Client.Do transport req v = { resp := none, err := some e, sinkOut := none })
    ∧ (∀ tr, transport req = Except.ok tr →
        ∃ rf, (Client.Do transport req v).resp = some rf ∧ rf.statusCode = tr.statusCode) := by
  constructor
  · intro e he
    unfold Client.Do
    rw [he]
  · intro tr htr
    have hDo : Client.Do transport req v = doRoundTrip tr v := by
      unfold Client.Do
      rw [htr]
    rw [hDo]
    unfold doRoundTrip
    split
    · exact ⟨_, rfl, rfl⟩
    · split
      · exact ⟨_, rfl, rfl⟩
      · unfold serveRaw
        split
        · exact ⟨_, rfl, rfl⟩
        · exact ⟨_, rfl, rfl⟩
      · unfold serveJson
        split
        · exact ⟨_, rfl, rfl⟩
        · split
          · exact ⟨_, rfl, rfl⟩
          · exact ⟨_, rfl, rfl⟩

/-- Witness for C9: a transport failure yields no response; a completed
204 round-trip yields a response with that status. -/
theorem c9_witness :
    Client.Do deadTransport req0 Sink.noSink
      = { resp := none, err := some "transport invoked", sinkOut := none }
    ∧ ∃ rf, (Client.Do (constTransport 204 "" false) req0 Sink.noSink).resp = some rf
        ∧ rf.statusCode = 204 :=
  ⟨(c9_response_alongside_error deadTransport req0 Sink.noSink).1 _ rfl,
   (c9_response_alongside_error (constTransport 204 "" false) req0 Sink.noSink).2
     { statusCode := 204, body := "", closeFails := false } rfl⟩

/-! ## Claim C6 -/

/-- Claim C6 (counterexample): `"//example.com/x"` does not parse as an
absolute URL (it has no scheme), so by the claim the request URL should be
the base URL concatenated with the path; but its host is non-empty, and the
code uses it verbatim. -/
theorem c6_counterexample :
    hasScheme "//example.com/x" = false
    ∧ hostOf "//example.com/x" = "example.com"
    ∧ clientJSON.NewRequest "GET" "//example.com/x" ReqBody.empty
        = Except.ok { method := "GET", url := "//example.com/x", body := "",
                      headers := [("Content-Type", clientJSON.mediaType),
                                  ("Accept", defaultMediaType),
                                  ("User-Agent", clientJSON.userAgent)] }
    ∧ "//example.com/x" ≠ clientJSON.baseURL ++ "//example.com/x" :=
  ⟨rfl, rfl, rfl, by decide⟩

/-- Claim C6 (amended): the base URL is bypassed exactly when the path parses
with a non-empty host — whether or not the path is an absolute URL; otherwise
the request URL is the base URL's string concatenated with the path. -/
theorem c6_amended (c : Client) (method path : String) (body : ReqBody) (req : Request)
    (h : c.NewRequest method path body = Except.ok req) :
    req.url = if hostOf path = "" then c.baseURL ++ path else path := by
  unfold Client.NewRequest at h
  cases hc : ctlFree path with
  | false => simp [hc] at h
  | true =>
    simp only [hc, Bool.not_true, Bool.false_eq_true, if_false] at h
    rcases he : encodeBody c.mediaType body with e | enc <;> rw [he] at h
    · cases h
    · injection h with h2
      rw [← h2]

/-- Witness for C6 at the relative path `/messages`. -/
theorem c6_witness :
    ({ method := "GET", url := clientJSON.baseURL ++ "/messages", body := "",
       headers := [("Content-Type", clientJSON.mediaType), ("Accept", defaultMediaType),
                   ("User-Agent", clientJSON.userAgent)] } : Request).url
      = if hostOf "/messages" = "" then clientJSON.baseURL ++ "/messages" else "/messages" :=
  c6_amended clientJSON "GET" "/messages" ReqBody.empty _ rfl

/-! ## Claim C7 -/

/-- Claim C7 (counterexample): with a configured media type other than JSON
or form-urlencoded and a non-nil body, `NewRequest` does not return a
configuration error — the media-type switch has no default case, so it
proceeds silently with an empty encoded body. -/
theorem c7_counterexample :
    clientText.mediaType = "text/plain"
    ∧ clientText.NewRequest "POST" "/x" (ReqBody.jsonable "1")
        = Except.ok { method := "POST", url := clientText.baseURL ++ "/x", body := "",
                      headers := [("Content-Type", clientText.mediaType),
                                  ("Accept", defaultMediaType),
                                  ("User-Agent", clientText.userAgent)] } :=
  ⟨rfl, rfl⟩

/-- Claim C7 (amended): with media type JSON the body is JSON-encoded
(failing only on unencodable values); with form-urlencoded the body must be
`url.Values`, otherwise the distinct body-type error is returned; with any
other configured media type a non-nil body is silently ignored and the
request is built with an empty body. -/
theorem c7_amended (c : Client) (method path : String) (hpath : ctlFree path = true) :
    (∀ s, c.mediaType = "application/json" →
        ∃ req, c.NewRequest method path (ReqBody.jsonable s) = Except.ok req
          ∧ req.body = s ++ "\n")
    ∧ (c.mediaType = "application/json" →
        c.NewRequest method path ReqBody.unjsonable = Except.error errJSONEncode)
    ∧ (∀ vs, c.mediaType = "application/x-www-form-urlencoded" →
        ∃ req, c.NewRequest method path (ReqBody.values vs) = Except.ok req
          ∧ req.body = formEncode vs)
    ∧ (∀ s, c.mediaType = "application/x-www-form-urlencoded" →
        c.NewRequest method path (ReqBody.jsonable s) = Except.error errFormBodyType)
    ∧ (c.mediaType = "application/x-www-form-urlencoded" →
        c.NewRequest method path ReqBody.unjsonable = Except.error errFormBodyType)
    ∧ (∀ b, c.mediaType ≠ "application/json" →
        c.mediaType ≠ "application/x-www-form-urlencoded" →
        ∃ req, c.NewRequest method path b = Except.ok req ∧ req.body = "") := by
  refine ⟨?_, ?_, ?_, ?_, ?_, ?_⟩
  · intro s hmt
    simp only [Client.NewRequest, encodeBody, hmt, hpath, Bool.not_true, Bool.false_eq_true,
      if_false, if_true]
    exact ⟨_, rfl, rfl⟩
  · intro hmt
    simp only [Client.NewRequest, encodeBody, hmt, hpath, Bool.not_true, Bool.false_eq_true,
      if_false, if_true]
  · intro vs hmt
    simp only [Client.NewRequest, encodeBody, hmt, hpath, Bool.not_true, Bool.false_eq_true,
      if_false, if_true]
    simp
  · intro s hmt
    simp only [Client.NewRequest, encodeBody, hmt, hpath, Bool.not_true, Bool.false_eq_true,
      if_false, if_true]
    simp
  · intro hmt
    simp only [Client.NewRequest, encodeBody, hmt, hpath, Bool.not_true, Bool.false_eq_true,
      if_false, if_true]
    simp
  · intro b h1 h2
    cases b <;>
      simp only [Client.NewRequest, encodeBody, hpath, Bool.not_true, Bool.false_eq_true,
        if_false, if_neg h1, if_neg h2] <;>
      exact ⟨_, rfl, rfl⟩

/-- Witness for C7: a JSON-encoded body under the default media type and the
body-type error under form-urlencoded. -/
theorem c7_witness :
    (∃ req, clientJSON.NewRequest "POST" "/x" (ReqBody.jsonable "1") = Except.ok req
      ∧ req.body = "1" ++ "\n")
    ∧ clientForm.NewRequest "POST" "/x" ReqBody.unjsonable = Except.error errFormBodyType :=
  ⟨(c7_amended clientJSON "POST" "/x" rfl).1 "1" rfl,
   (c7_amended clientForm "POST" "/x" rfl).2.2.2.2.1 rfl⟩

/-! ## Claims C1 and C8: the empty-token paths of query -/

/-- With an empty access token, `Session.query` returns an error without ever
invoking the transport, and that error is `ErrNoAccessToken` whenever request
construction succeeds. -/
theorem query_no_token (s : Session) (h : s.accessToken = "")
    (hbp : ctlFree s.basePath = true) (method u : String)
    (ps : Option (List (String × String))) (d : ReqBody) (r : Sink) :
    ∃ e, (∀ t, s.query t method u ps d r = { resp := none, err := some e, sinkOut := none })
      ∧ (∀ req, s.client.NewRequest method (sessionPath s.basePath u (paramsQS ps)) d
            = Except.ok req → e = ErrNoAccessToken) := by
  rcases hn : s.client.NewRequest method (sessionPath s.basePath u (paramsQS ps)) d with e | req
  · refine ⟨e, fun t => ?_, fun req hok => ?_⟩
    · simp only [Session.query, hbp, Bool.not_true, Bool.false_eq_true, if_false]
      rw [hn]
    · cases hok
  · refine ⟨ErrNoAccessToken, fun t => ?_, fun _ _ => rfl⟩
    simp only [Session.query, hbp, Bool.not_true, Bool.false_eq_true, if_false]
    rw [hn]
    simp [h]

/-- Claim C1 (counterexample): over a form-urlencoded client, an empty-token
`Post` whose body is not `url.Values` returns the body-type construction
error, not `ErrNoAccessToken` (construction is checked first). -/
theorem c1_counterexample :
    sessionNoToken.accessToken = ""
    ∧ (sessionNoToken.Post deadTransport "/messages" (ReqBody.jsonable "1") Sink.noSink).err
        = some errFormBodyType
    ∧ errFormBodyType ≠ ErrNoAccessToken :=
  ⟨rfl, rfl, by decide⟩

/-- Claim C1 (amended): for every empty-token session, each public verb —
Get, Post, Patch, Delete, and Send — returns an error and never invokes the
transport (the result is the same for every transport); the error is
`ErrNoAccessToken` whenever request construction succeeds (otherwise it is
the construction error). -/
theorem c1_amended (s : Session) (h : s.accessToken = "")
    (hbp : ctlFree s.basePath = true) (u : String)
    (ps : Option (List (String × String))) (d : ReqBody) (r : Sink) (msg : String) :
    (∃ e, (∀ t, s.Get t u ps r = { resp := none, err := some e, sinkOut := none })
      ∧ (∀ req, s.client.NewRequest "GET" (sessionPath s.basePath u (paramsQS ps))
            ReqBody.empty = Except.ok req → e = ErrNoAccessToken))
    ∧ (∃ e, (∀ t, s.Post t u d r = { resp := none, err := some e, sinkOut := none })
      ∧ (∀ req, s.client.NewRequest "POST" (sessionPath s.basePath u (paramsQS none)) d
            = Except.ok req → e = ErrNoAccessToken))
    ∧ (∃ e, (∀ t, s.Patch t u d r = { resp := none, err := some e, sinkOut := none })
      ∧ (∀ req, s.client.NewRequest "PATCH" (sessionPath s.basePath u (paramsQS none)) d
            = Except.ok req → e = ErrNoAccessToken))
    ∧ (∃ e, (∀ t, s.Delete t u ps r = { resp := none, err := some e, sinkOut := none })
      ∧ (∀ req, s.client.NewRequest "DELETE" (sessionPath s.basePath u (paramsQS ps))
            ReqBody.empty = Except.ok req → e = ErrNoAccessToken))
    ∧ (∃ e, (∀ t, s.Send t msg = some e)
      ∧ (∀ req, s.client.NewRequest "POST" (sessionPath s.basePath "/sendMail" (paramsQS none))
            (ReqBody.jsonable (sendBodyJson msg)) = Except.ok req → e = ErrNoAccessToken)) := by
  refine ⟨?_, ?_, ?_, ?_, ?_⟩
  · exact query_no_token s h hbp "GET" u ps ReqBody.empty r
  · exact query_no_token s h hbp "POST" u none d r
  · exact query_no_token s h hbp "PATCH" u none d r
  · exact query_no_token s h hbp "DELETE" u ps ReqBody.empty r
  · obtain ⟨e, h1, h2⟩ :=
      query_no_token s h hbp "POST" "/sendMail" none (ReqBody.jsonable (sendBodyJson msg))
        Sink.noSink
    refine ⟨e, fun t => ?_, h2⟩
    simp only [Session.Send]
    rw [h1 t]

/-- Witness for C1 over the default JSON client at path `/messages`. -/
theorem c1_witness :
    ∃ e, (∀ t, sessionNoTokenJSON.Get t "/messages" none Sink.noSink
        = { resp := none, err := some e, sinkOut := none })
      ∧ (∀ req, sessionNoTokenJSON.client.NewRequest "GET"
            (sessionPath sessionNoTokenJSON.basePath "/messages" (paramsQS none))
            ReqBody.empty = Except.ok req → e = ErrNoAccessToken) :=
  (c1_amended sessionNoTokenJSON rfl rfl "/messages" none ReqBody.empty Sink.noSink "m").1

/-- Claim C8: in `Session.query` the no-access-token check sits after request
construction and before the network call: with an empty token, a failing
construction reports its own error, and a successful construction reports
`ErrNoAccessToken` — in both cases for every transport, so no network call
is made. -/
theorem c8_token_check_ordering (s : Session) (hbp : ctlFree s.basePath = true)
    (h : s.accessToken = "") (t : Request → Except String TranspResp)
    (method u : String) (ps : Option (List (String × String))) (d : ReqBody) (r : Sink) :
    (∀ e, s.client.NewRequest method (sessionPath s.basePath u (paramsQS ps)) d
        = Except.error e →
      s.query t method u ps d r = { resp := none, err := some e, sinkOut := none })
    ∧ (∀ req, s.client.NewRequest method (sessionPath s.basePath u (paramsQS ps)) d
        = Except.ok req →
      s.query t method u ps d r
        = { resp := none, err := some ErrNoAccessToken, sinkOut := none }) := by
  constructor
  · intro e hn
    simp only [Session.query, hbp, Bool.not_true, Bool.false_eq_true, if_false]
    rw [hn]
  · intro req hn
    simp only [Session.query, hbp, Bool.not_true, Bool.false_eq_true, if_false]
    rw [hn]
    simp [h]

/-- Witness for C8: both a malformed construction (form media type with a
non-`url.Values` body) and an empty token are present; the construction error
is returned. -/
theorem c8_witness :
    sessionNoToken.query deadTransport "POST" "/messages" none (ReqBody.jsonable "1")
        Sink.noSink
      = { resp := none, err := some errFormBodyType, sinkOut := none } :=
  (c8_token_check_ordering sessionNoToken rfl rfl deadTransport "POST" "/messages" none
      (ReqBody.jsonable "1") Sink.noSink).1 errFormBodyType rfl

/-! ## Claim C3: the Send status contract -/

theorem apiErr_contains_status (st : Nat) (m : String) :
    containsSub (apiErr st m) (toString st) :=
  ⟨"API error: status ", ": " ++ m, rfl⟩

theorem apiErr_contains_msg (st : Nat) (m : String) : containsSub (apiErr st m) m :=
  ⟨"API error: status " ++ toString st ++ ": ", "", by
    simp [apiErr, strAppend_assoc, strAppend_empty]⟩

theorem apiErrParseFail_contains_status (st : Nat) (e : String) :
    containsSub (apiErrParseFail st e) (toString st) :=
  ⟨"API error: status ", ": failed to parse error response: " ++ e, rfl⟩

theorem sendErrParseFail_contains_status (st : Nat) (e : String) :
    containsSub (sendErrParseFail st e) (toString st) :=
  ⟨"failed to send email: status ", ": Failed to parse error response: " ++ e, rfl⟩

theorem sendErrParseFail_contains_err (st : Nat) (e : String) :
    containsSub (sendErrParseFail st e) e :=
  ⟨"failed to send email: status " ++ toString st ++ ": Failed to parse error response: ", "", by
    simp [sendErrParseFail, strAppend_assoc, strAppend_empty]⟩

/-- Evaluation of `Session.Send` over a fixed-response transport, for a JSON
client with base path `/me` and a non-empty token: a 2xx status passes the
centralized check, after which the body is already closed when `Send` tries
to decode it; a non-2xx status is turned into the structured API error by the
check itself. -/
theorem send_const (s : Session) (hmt : s.client.mediaType = "application/json")
    (hbp : s.basePath = "/me") (htok : ¬ s.accessToken = "") (msg : String)
    (st : Nat) (body : String) (cf : Bool) :
    s.Send (constTransport st body cf) msg =
      if 200 ≤ st && st < 300 then
        (if st = 202 then none else some (sendErrParseFail st errReadOnClosedBody))
      else
        match jsonDecodeMessage body with
        | some m => some (apiErr st m)
        | none => some (apiErrParseFail st "body is not a JSON error object") := by
  have hreq : s.client.NewRequest "POST" (sessionPath "/me" "/sendMail" (paramsQS none))
      (ReqBody.jsonable (sendBodyJson msg))
      = Except.ok { method := "POST", url := s.client.baseURL ++ "/me/sendMail",
                    body := sendBodyJson msg ++ "\n",
                    headers := [("Content-Type", s.client.mediaType),
                                ("Accept", defaultMediaType),
                                ("User-Agent", s.client.userAgent)] } := by
    simp only [Client.NewRequest, encodeBody, hmt]
    rfl
  have hcf : ctlFree "/me" = true := rfl
  simp only [Session.Send, Session.query, hbp]
  rw [hreq]
  simp only [if_neg htok, Client.Do, constTransport, doRoundTrip, checkResponse, readAll]
  by_cases hb : 200 ≤ st ∧ st < 300
  · have hb' : (decide (200 ≤ st) && decide (st < 300)) = true := by simp [hb.1, hb.2]
    simp only [hb', if_true]
    by_cases h202 : st = 202
    · subst h202
      simp [hcf, doFinish, closeBody]
    · simp [hcf, h202, doFinish, closeBody, readAll]
  · have hb' : (decide (200 ≤ st) && decide (st < 300)) = false := by
      rcases Nat.lt_or_ge st 200 with h1 | h1
      · simp [Nat.not_le.mpr h1]
      · have h2 : ¬ st < 300 := fun hlt => hb ⟨h1, hlt⟩
        simp [h2]
    simp only [hb', Bool.false_eq_true, if_false]
    rcases hd : jsonDecodeMessage body with _ | m <;>
      simp [hcf, hd, doFinish, closeBody]

/-- Claim C3: `Send` returns nil exactly for status 202. For a non-2xx status
the centralized check produces the error: it carries the status code, plus
the decoded `\x7b"message": ...\x7d` when the body decodes, or the parse
failure otherwise. For a 2xx status other than 202, `Send`'s own decode runs
on the already-closed body, so the error carries the status code together
with the decode failure. -/
theorem c3_send_status_contract (s : Session)
    (hmt : s.client.mediaType = "application/json") (hbp : s.basePath = "/me")
    (htok : ¬ s.accessToken = "") (msg : String) (st : Nat) (body : String) (cf : Bool) :
    (s.Send (constTransport st body cf) msg = none ↔ st = 202)
    ∧ (¬ (200 ≤ st ∧ st < 300) →
        (∀ m, jsonDecodeMessage body = some m →
          s.Send (constTransport st body cf) msg = some (apiErr st m)
          ∧ containsSub (apiErr st m) (toString st) ∧ containsSub (apiErr st m) m)
        ∧ (jsonDecodeMessage body = none →
          s.Send (constTransport st body cf) msg
            = some (apiErrParseFail st "body is not a JSON error object")
          ∧ containsSub (apiErrParseFail st "body is not a JSON error object") (toString st)))
    ∧ ((200 ≤ st ∧ st < 300) → st ≠ 202 →
        s.Send (constTransport st body cf) msg = some (sendErrParseFail st errReadOnClosedBody)
        ∧ containsSub (sendErrParseFail st errReadOnClosedBody) (toString st)
        ∧ containsSub (sendErrParseFail st errReadOnClosedBody) errReadOnClosedBody) := by
  have hsc := send_const s hmt hbp htok msg st body cf
  refine ⟨?_, ?_, ?_⟩
  · constructor
    · intro hnone
      rw [hsc] at hnone
      by_cases hb : 200 ≤ st ∧ st < 300
      · have hb' : (decide (200 ≤ st) && decide (st < 300)) = true := by simp [hb.1, hb.2]
        by_cases h202 : st = 202
        · exact h202
        · simp [hb', h202] at hnone
      · have hb' : (decide (200 ≤ st) && decide (st < 300)) = false := by
          rcases Nat.lt_or_ge st 200 with h1 | h1
          · simp [Nat.not_le.mpr h1]
          · have h2 : ¬ st < 300 := fun hlt => hb ⟨h1, hlt⟩
            simp [h2]
        rcases hd : jsonDecodeMessage body with _ | m <;> simp [hb', hd] at hnone
    · intro h202
      subst h202
      rw [hsc]
      simp
  · intro hb
    have hb' : (decide (200 ≤ st) && decide (st < 300)) = false := by
      rcases Nat.lt_or_ge st 200 with h1 | h1
      · simp [Nat.not_le.mpr h1]
      · have h2 : ¬ st < 300 := fun hlt => hb ⟨h1, hlt⟩
        simp [h2]
    constructor
    · intro m hd
      rw [hsc]
      simp only [hb', Bool.false_eq_true, if_false, hd]
      exact ⟨by trivial, apiErr_contains_status st m, apiErr_contains_msg st m⟩
    · intro hd
      rw [hsc]
      simp only [hb', Bool.false_eq_true, if_false, hd]
      exact ⟨by trivial, apiErrParseFail_contains_status st _⟩
  · intro hb h202
    have hb' : (decide (200 ≤ st) && decide (st < 300)) = true := by simp [hb.1, hb.2]
    rw [hsc]
    simp only [hb', if_true, if_neg h202]
    exact ⟨by trivial, sendErrParseFail_contains_status st _, sendErrParseFail_contains_err st _⟩

/-- Witness for C3 at the spec's own example: status 400 with body
`\x7b"message":"invalid recipient"\x7d` yields an error carrying both `400`
and `invalid recipient`. -/
theorem c3_witness :
    sessionTok.Send (constTransport 400 "\x7b\"message\":\"invalid recipient\"\x7d" false) "m"
      = some (apiErr 400 "invalid recipient")
    ∧ containsSub (apiErr 400 "invalid recipient") (toString 400)
    ∧ containsSub (apiErr 400 "invalid recipient") "invalid recipient" :=
  ((c3_send_status_contract sessionTok rfl rfl (by decide) "m" 400
      "\x7b\"message\":\"invalid recipient\"\x7d" false).2.1 (by decide)).1
    "invalid recipient" rfl

/-! ## Path lemmas for Claims C2 and C10 -/

theorem goodSegL_no_slash {sg : List Char} (h : goodSegL sg = true) :
    ∀ c ∈ sg, (c == '/') = false := by
  intro c hc
  have h2 : sg.all (fun c => c.isAlpha || c.isDigit) = true :=
    ((Bool.and_eq_true _ _).mp h).2
  have h3 := List.all_eq_true.mp h2 c hc
  cases heq : c == '/' with
  | false => rfl
  | true =>
    have hce : c = '/' := eq_of_beq heq
    subst hce
    exact absurd h3 (by decide)

theorem goodSegL_ne_nil {sg : List Char} (h : goodSegL sg = true) : sg ≠ [] := by
  intro he
  subst he
  exact absurd h (by decide)

theorem goodSegL_ne_dot {sg : List Char} (h : goodSegL sg = true) : sg ≠ ['.'] := by
  intro he
  subst he
  exact absurd h (by decide)

theorem goodSegL_ne_ddot {sg : List Char} (h : goodSegL sg = true) : sg ≠ ['.', '.'] := by
  intro he
  subst he
  exact absurd h (by decide)

theorem splitSl_replicate_append (i : Nat) (t : List Char) :
    splitSl (List.replicate i '/' ++ t) = List.replicate i [] ++ splitSl t := by
  induction i with
  | zero => rfl
  | succ n ih => simp [List.replicate_succ, splitSl, ih]

theorem splitSl_replicate (j : Nat) :
    splitSl (List.replicate j '/') = List.replicate j [] ++ [[]] := by
  induction j with
  | zero => rfl
  | succ n ih => simp [List.replicate_succ, splitSl, ih]

theorem splitSl_seg_append {sg : List Char} (hs : ∀ c ∈ sg, (c == '/') = false)
    (t : List Char) :
    splitSl (sg ++ '/' :: t) = sg :: splitSl t := by
  induction sg with
  | nil => simp [splitSl]
  | cons c cs ih =>
    have hc := hs c (List.mem_cons_self _ _)
    have hcs : ∀ x ∈ cs, (x == '/') = false := fun x hx => hs x (List.mem_cons_of_mem _ hx)
    simp [splitSl, hc, ih hcs]

theorem splitSl_seg {sg : List Char} (hs : ∀ c ∈ sg, (c == '/') = false) :
    splitSl sg = [sg] := by
  induction sg with
  | nil => rfl
  | cons c cs ih =>
    have hc := hs c (List.mem_cons_self _ _)
    have hcs : ∀ x ∈ cs, (x == '/') = false := fun x hx => hs x (List.mem_cons_of_mem _ hx)
    simp [splitSl, hc, ih hcs]

theorem interL_cons (sg : List Char) (l : List (List Char)) (h : l ≠ []) :
    interL (sg :: l) = sg ++ '/' :: interL l := by
  cases l with
  | nil => exact absurd rfl h
  | cons a t => rfl

theorem splitSl_interL_append (t : List Char) :
    ∀ segsL : List (List Char), segsL ≠ [] →
      (∀ sg ∈ segsL, ∀ c ∈ sg, (c == '/') = false) →
      splitSl (interL segsL ++ '/' :: t) = segsL ++ splitSl t := by
  intro segsL
  induction segsL with
  | nil => intro h; exact absurd rfl h
  | cons sg rest ih =>
    intro _ hg
    cases rest with
    | nil =>
      simp only [interL, List.singleton_append]
      rw [splitSl_seg_append (hg sg (List.mem_cons_self _ _))]
    | cons s2 r2 =>
      rw [interL_cons sg (s2 :: r2) (by simp)]
      have hassoc : (sg ++ '/' :: interL (s2 :: r2)) ++ '/' :: t
          = sg ++ '/' :: (interL (s2 :: r2) ++ '/' :: t) := by simp
      rw [hassoc, splitSl_seg_append (hg sg (List.mem_cons_self _ _)),
        ih (by simp) (fun x hx c hc => hg x (List.mem_cons_of_mem _ hx) c hc)]
      rfl

theorem splitSl_interL :
    ∀ segsL : List (List Char), segsL ≠ [] →
      (∀ sg ∈ segsL, ∀ c ∈ sg, (c == '/') = false) →
      splitSl (interL segsL) = segsL := by
  intro segsL
  induction segsL with
  | nil => intro h; exact absurd rfl h
  | cons sg rest ih =>
    intro _ hg
    cases rest with
    | nil => exact splitSl_seg (hg sg (List.mem_cons_self _ _))
    | cons s2 r2 =>
      rw [interL_cons sg (s2 :: r2) (by simp),
        splitSl_seg_append (hg sg (List.mem_cons_self _ _)),
        ih (by simp) (fun x hx c hc => hg x (List.mem_cons_of_mem _ hx) c hc)]

theorem cleanSegsAux_good :
    ∀ l : List (List Char), ∀ acc : List (List Char),
      (∀ sg ∈ l, sg = [] ∨ goodSegL sg = true) →
      cleanSegsAux true acc l = acc.reverse ++ l.filter (fun sg => !sg.isEmpty) := by
  intro l
  induction l with
  | nil => intro acc _; simp [cleanSegsAux]
  | cons sg rest ih =>
    intro acc hl
    rcases hl sg (List.mem_cons_self _ _) with he | hgood
    · subst he
      simp only [cleanSegsAux, List.isEmpty_nil, Bool.true_or, if_true]
      rw [ih acc (fun x hx => hl x (List.mem_cons_of_mem _ hx))]
      simp [List.filter]
    · have h1 : sg ≠ [] := goodSegL_ne_nil hgood
      have h2 : sg ≠ ['.'] := goodSegL_ne_dot hgood
      have h3 : sg ≠ ['.', '.'] := goodSegL_ne_ddot hgood
      have hie : sg.isEmpty = false := by
        cases sg with
        | nil => exact absurd rfl h1
        | cons a t => rfl
      simp only [cleanSegsAux, hie, h2, h3, Bool.false_or, decide_eq_true_eq, if_false,
        if_neg h2, if_neg h3]
      rw [ih (sg :: acc) (fun x hx => hl x (List.mem_cons_of_mem _ hx))]
      simp [List.filter, hie]

theorem filter_replicate_nil (i : Nat) :
    (List.replicate i ([] : List Char)).filter (fun sg => !sg.isEmpty) = [] := by
  induction i with
  | zero => rfl
  | succ n ih => simp [List.replicate_succ, List.filter, ih]

theorem filter_good_self {segsL : List (List Char)}
    (hg : ∀ sg ∈ segsL, goodSegL sg = true) :
    segsL.filter (fun sg => !sg.isEmpty) = segsL := by
  induction segsL with
  | nil => rfl
  | cons sg rest ih =>
    have hie : sg.isEmpty = false := by
      cases sg with
      | nil => exact absurd rfl (goodSegL_ne_nil (hg _ (List.mem_cons_self _ _)))
      | cons a t => rfl
    simp [List.filter, hie, ih (fun x hx => hg x (List.mem_cons_of_mem _ hx))]

theorem pathCleanL_me_join (i j : Nat) (segsL : List (List Char)) (hne : segsL ≠ [])
    (hg : ∀ sg ∈ segsL, goodSegL sg = true) :
    pathCleanL ('/' :: 'm' :: 'e' :: '/' ::
        (List.replicate i '/' ++ (interL segsL ++ List.replicate j '/')))
      = '/' :: 'm' :: 'e' :: '/' :: interL segsL := by
  have hgns : ∀ sg ∈ segsL, ∀ c ∈ sg, (c == '/') = false :=
    fun sg hsg => goodSegL_no_slash (hg sg hsg)
  have hme : ∀ c ∈ (['m', 'e'] : List Char), (c == '/') = false := by decide
  have htail : splitSl (interL segsL ++ List.replicate j '/')
      = segsL ++ List.replicate j [] := by
    cases j with
    | zero =>
      simp only [List.replicate, List.append_nil]
      exact splitSl_interL segsL hne hgns
    | succ n =>
      simp only [List.replicate_succ]
      rw [splitSl_interL_append (List.replicate n '/') segsL hne hgns,
        splitSl_replicate, ← List.replicate_succ', List.replicate_succ]
  have hsplit : splitSl ('/' :: 'm' :: 'e' :: '/' ::
      (List.replicate i '/' ++ (interL segsL ++ List.replicate j '/')))
      = [] :: ['m', 'e'] :: (List.replicate i [] ++ (segsL ++ List.replicate j [])) := by
    have step1 : splitSl ('/' :: 'm' :: 'e' :: '/' ::
        (List.replicate i '/' ++ (interL segsL ++ List.replicate j '/')))
        = [] :: splitSl ('m' :: 'e' :: '/' ::
            (List.replicate i '/' ++ (interL segsL ++ List.replicate j '/'))) := by
      simp [splitSl]
    rw [step1]
    have step2 : ('m' :: 'e' :: '/' ::
        (List.replicate i '/' ++ (interL segsL ++ List.replicate j '/')))
        = (['m', 'e'] : List Char) ++ '/' ::
            (List.replicate i '/' ++ (interL segsL ++ List.replicate j '/')) := rfl
    rw [step2, splitSl_seg_append hme, splitSl_replicate_append, htail]
  have hallgood : ∀ sg ∈ ([] :: ['m', 'e'] ::
      (List.replicate i [] ++ (segsL ++ List.replicate j []))),
      sg = [] ∨ goodSegL sg = true := by
    intro sg hsg
    rcases List.mem_cons.mp hsg with rfl | hsg
    · exact Or.inl rfl
    rcases List.mem_cons.mp hsg with rfl | hsg
    · exact Or.inr (by decide)
    rcases List.mem_append.mp hsg with hrep | hsg2
    · exact Or.inl (List.eq_of_mem_replicate hrep)
    rcases List.mem_append.mp hsg2 with hseg | hrep2
    · exact Or.inr (hg sg hseg)
    · exact Or.inl (List.eq_of_mem_replicate hrep2)
  have hclean : cleanSegsAux true [] (splitSl ('/' :: 'm' :: 'e' :: '/' ::
      (List.replicate i '/' ++ (interL segsL ++ List.replicate j '/'))))
      = ['m', 'e'] :: segsL := by
    rw [hsplit, cleanSegsAux_good _ [] hallgood]
    simp only [List.reverse_nil, List.nil_append]
    rw [List.filter_cons, List.filter_cons, List.filter_append, List.filter_append,
      filter_replicate_nil, filter_replicate_nil, filter_good_self hg]
    simp
  unfold pathCleanL
  rw [hclean]
  show ('/' :: interL (['m', 'e'] :: segsL)) = '/' :: 'm' :: 'e' :: '/' :: interL segsL
  rw [interL_cons _ _ hne]
  rfl

theorem interL_head :
    ∀ segsL : List (List Char), segsL ≠ [] →
      (∀ sg ∈ segsL, goodSegL sg = true) →
      ∃ c t, interL segsL = c :: t ∧ (c == '/') = false := by
  intro segsL
  cases segsL with
  | nil => intro h; exact absurd rfl h
  | cons sg rest =>
    intro _ hg
    have hgood := hg sg (List.mem_cons_self _ _)
    cases sg with
    | nil => exact absurd hgood (by decide)
    | cons c cs =>
      have hc : (c == '/') = false :=
        goodSegL_no_slash hgood c (List.mem_cons_self _ _)
      cases rest with
      | nil => exact ⟨c, cs, rfl, hc⟩
      | cons s2 r2 =>
        exact ⟨c, cs ++ '/' :: interL (s2 :: r2), rfl, hc⟩

theorem interL_last :
    ∀ segsL : List (List Char), segsL ≠ [] →
      (∀ sg ∈ segsL, goodSegL sg = true) →
      ∃ u c, interL segsL = u ++ [c] ∧ (c == '/') = false := by
  intro segsL
  induction segsL with
  | nil => intro h; exact absurd rfl h
  | cons sg rest ih =>
    intro _ hg
    cases rest with
    | nil =>
      have hgood := hg sg (List.mem_cons_self _ _)
      rcases List.eq_nil_or_concat sg with he | ⟨u, c, huc⟩
      · exact absurd he (goodSegL_ne_nil hgood)
      · rw [List.concat_eq_append] at huc
        refine ⟨u, c, huc, goodSegL_no_slash hgood c ?_⟩
        rw [huc]
        exact List.mem_append_right _ (List.mem_cons_self _ _)
    | cons s2 r2 =>
      obtain ⟨u, c, huc, hns⟩ :=
        ih (by simp) (fun x hx => hg x (List.mem_cons_of_mem _ hx))
      refine ⟨sg ++ '/' :: u, c, ?_, hns⟩
      rw [interL_cons sg (s2 :: r2) (by simp), huc]
      simp

theorem joinSegs_data (segs : List String) :
    (joinSegs segs).data = interL (segs.map String.data) := by
  induction segs with
  | nil => rfl
  | cons sg rest ih =>
    cases rest with
    | nil => rfl
    | cons s2 r2 =>
      show (sg ++ "/" ++ joinSegs (s2 :: r2)).data = _
      simp only [List.map_cons]
      rw [interL_cons _ _ (by simp)]
      simp [strData_append, ih]

theorem mapData_ne_nil {segs : List String} (hne : segs ≠ []) :
    segs.map String.data ≠ [] := by
  cases segs with
  | nil => exact absurd rfl hne
  | cons a t => simp

theorem mapData_good {segs : List String} (hg : ∀ sg ∈ segs, goodSeg sg = true) :
    ∀ sg ∈ segs.map String.data, goodSegL sg = true := by
  intro sg hsg
  obtain ⟨x, hx, rfl⟩ := List.mem_map.mp hsg
  exact hg x hx

theorem endsSlash_clean_path (i : Nat) (segs : List String) (hne : segs ≠ [])
    (hg : ∀ sg ∈ segs, goodSeg sg = true) :
    endsSlash (repSlash i ++ joinSegs segs) = false := by
  obtain ⟨u, d, hud, hdns⟩ :=
    interL_last (segs.map String.data) (mapData_ne_nil hne) (mapData_good hg)
  unfold endsSlash
  have hrev : (repSlash i ++ joinSegs segs).data.reverse
      = d :: (u.reverse ++ List.replicate i '/') := by
    rw [strData_append, joinSegs_data, hud]
    simp [repSlash, List.reverse_append]
  rw [hrev]
  exact hdns

theorem urlJoinPath_me (i : Nat) (segs : List String) (hne : segs ≠ [])
    (hg : ∀ sg ∈ segs, goodSeg sg = true) :
    urlJoinPath "/me" (repSlash i ++ joinSegs segs) = "/me/" ++ joinSegs segs := by
  have hneL := mapData_ne_nil hne
  have hgL := mapData_good hg
  have hpd : (repSlash i ++ joinSegs segs).data
      = List.replicate i '/' ++ (interL (segs.map String.data) ++ List.replicate 0 '/') := by
    simp [strData_append, joinSegs_data, repSlash]
  have hpne : (repSlash i ++ joinSegs segs) ≠ "" := by
    intro he
    have hd : (repSlash i ++ joinSegs segs).data = [] := by rw [he]
    rw [hpd] at hd
    obtain ⟨c, t, hct, _⟩ := interL_head (segs.map String.data) hneL hgL
    rw [hct] at hd
    simp at hd
  have hend : endsSlash (repSlash i ++ joinSegs segs) = false :=
    endsSlash_clean_path i segs hne hg
  have hss : startsSlash "/me" = true := rfl
  unfold urlJoinPath
  simp only [hend, hss, Bool.false_and, Bool.false_eq_true, if_false, if_true]
  unfold pathJoin2
  have hcond : (decide ("/me" = "") && decide (repSlash i ++ joinSegs segs = "")) = false := by
    simp
  rw [if_neg (by simp [hcond]), if_neg (by decide), if_neg hpne]
  apply String.ext
  show pathCleanL (("/me" ++ "/" ++ (repSlash i ++ joinSegs segs)).data)
      = ("/me/" ++ joinSegs segs).data
  have hfull : ("/me" ++ "/" ++ (repSlash i ++ joinSegs segs)).data
      = '/' :: 'm' :: 'e' :: '/' ::
        (List.replicate i '/' ++ (interL (segs.map String.data) ++ List.replicate 0 '/')) := by
    rw [strData_append, strData_append, hpd]
    rfl
  rw [hfull, pathCleanL_me_join i 0 _ hneL hgL]
  rw [strData_append, joinSegs_data]
  rfl

/-- Claim C10 (counterexample): with nil params and the relative path
`messages` (no leading slash), the `JoinPath` revision hands
`/me/messages` to request construction while the `Sprintf` revision hands
`/memessages` — the two implementations do not construct the same path. -/
theorem c10_counterexample :
    sessionPath "/me" "messages" (paramsQS none) = "/me/messages"
    ∧ sessionPathConcat "/me" "messages" (paramsQS none) = "/memessages"
    ∧ sessionPath "/me" "messages" (paramsQS none)
        ≠ sessionPathConcat "/me" "messages" (paramsQS none) :=
  ⟨rfl, rfl, by decide⟩

/-- Claim C10 (amended): the two revisions do not construct the same path in
general (see the counterexample); they do agree for nil params and every
path made of a single leading slash followed by slash-separated nonempty
alphanumeric segments with no trailing slash — on those inputs both hand
`basePath ++ p` to request construction. -/
theorem c10_amended (segs : List String) (hne : segs ≠ [])
    (hg : ∀ sg ∈ segs, goodSeg sg = true) :
    sessionPath "/me" ("/" ++ joinSegs segs) (paramsQS none)
      = sessionPathConcat "/me" ("/" ++ joinSegs segs) (paramsQS none) := by
  have h := urlJoinPath_me 1 segs hne hg
  have hp : repSlash 1 ++ joinSegs segs = "/" ++ joinSegs segs := by
    apply String.ext
    simp [strData_append, repSlash]
  rw [hp] at h
  unfold sessionPath sessionPathConcat
  rw [h]
  show ("/me/" ++ joinSegs segs) ++ (if ("" : String) = "" then "" else "?" ++ "") = _
  rw [if_pos rfl, strAppend_empty]
  apply String.ext
  simp [strData_append, paramsQS]

/-- Witness for C10 at `p = "/messages"`. -/
theorem c10_witness :
    sessionPath "/me" ("/" ++ joinSegs ["messages"]) (paramsQS none)
      = sessionPathConcat "/me" ("/" ++ joinSegs ["messages"]) (paramsQS none) :=
  c10_amended ["messages"] (by decide) (by decide)

end GoOutlook
